import Mathlib

/-!
# Verification of the MCP expense-tracker servers

Shallow embedding of the two server variants in this repository:

* `ExpenseTracker` — `expense-tracker-mcp-server/main.py` (synchronous sqlite3,
  no try/except wrappers, `is not None` patch semantics, `ORDER BY id ASC`).
* `TestRemote` — `test-remote-mcp-server/main.py` (aiosqlite with per-operation
  try/except, Python-truthiness patch semantics, `ORDER BY date DESC, id DESC`,
  plus `search_expenses`, `monthly_report` and a default-creating categories
  resource).

The sqlite engine is an external collaborator; its behaviour on the statements
the servers issue is modelled explicitly:

* the `expenses` table is a `DBState`: the list of rows plus the
  `AUTOINCREMENT` counter (sqlite never reuses an `AUTOINCREMENT` id, the next
  id is strictly larger than every id ever handed out);
* `REAL` amounts are modelled as exact rationals (`Rat`); the claims under
  study are about which rows are summed, not float rounding;
* TEXT comparison (`BETWEEN`, `ORDER BY`) uses sqlite's BINARY collation,
  i.e. byte-wise lexicographic comparison of the UTF-8 encodings, which on
  `List Char` is codepoint-lexicographic order (`charListLe`);
* `ORDER BY` is modelled with `List.insertionSort` by the requested key —
  sqlite guarantees only that the output is sorted by that key;
* `LIKE` is `likeMatch`: `%`/`_` wildcards, ASCII-case-insensitive;
* `strftime('%Y'/'%m', d)` is `sqliteYear`/`sqliteMonth`: the date parser
  accepts `YYYY-MM-DD` strings denoting real calendar dates and yields the
  year/month digits; other strings are modelled as rejected (NULL), so the
  `WHERE strftime(...) = ?` filter drops them.
-/

/-- One row of the `expenses` table created by `init_db`:
`id INTEGER PRIMARY KEY AUTOINCREMENT`, `date TEXT NOT NULL`,
`amount REAL NOT NULL`, `category TEXT NOT NULL`,
`subcategory TEXT DEFAULT ''`, `note TEXT DEFAULT ''`. -/
structure Expense where
  id : Nat
  date : String
  amount : Rat
  category : String
  subcategory : String
  note : String
deriving Repr, DecidableEq

/-- The `expenses` table plus sqlite's `AUTOINCREMENT` state: `nextId` is the
id the next successful `INSERT` receives.  Rows are kept in insertion order. -/
structure DBState where
  rows : List Expense
  nextId : Nat
deriving Repr, DecidableEq

/-- The state right after `init_db` on a fresh database: no rows, ids start
at 1. -/
def initState : DBState := ⟨[], 1⟩

/-- sqlite BINARY collation on TEXT values: lexicographic comparison of the
UTF-8 bytes, equivalently of the code points. -/
def charListLe : List Char → List Char → Bool
  | [], _ => true
  | _ :: _, [] => false
  | a :: as, b :: bs =>
    if a.toNat < b.toNat then true
    else if b.toNat < a.toNat then false
    else charListLe as bs

/-- `a <= b` for sqlite TEXT values. -/
def strLe (a b : String) : Bool := charListLe a.data b.data

/-- `d BETWEEN lo AND hi` for TEXT operands: `lo <= d AND d <= hi`. -/
def dateBetween (lo hi d : String) : Bool := strLe lo d && strLe d hi

/-- Python truthiness of an optional string argument (`if s:`):
false for `None` and for the empty string. -/
def truthyStr : Option String → Bool
  | none => false
  | some s => s != ""

/-- Python truthiness of an optional numeric argument (`if a:`):
false for `None` and for zero. -/
def truthyRat : Option Rat → Bool
  | none => false
  | some a => a != 0

/-- `SELECT key, SUM(amount), COUNT(*) ... GROUP BY key`: one triple per
distinct key value among `rows`, in unspecified order (the callers sort). -/
def groupAgg (key : Expense → String) (rows : List Expense) : List (String × Rat × Nat) :=
  (rows.map key).dedup.map fun k =>
    (k, ((rows.filter fun r => key r == k).map Expense.amount).sum,
        (rows.filter fun r => key r == k).length)

/-- The ASCII lower-casing sqlite's default `LIKE` applies to both operands. -/
def likeLower (c : Char) : Char :=
  if 65 ≤ c.toNat && c.toNat ≤ 90 then Char.ofNat (c.toNat + 32) else c

/-- sqlite `LIKE` matching: `%` matches any character sequence, `_` any single
character, any other pattern character matches itself up to ASCII case. -/
def likeMatch : List Char → List Char → Bool
  | [], ts => ts.isEmpty
  | '%' :: ps, ts => (List.range (ts.length + 1)).any fun k => likeMatch ps (ts.drop k)
  | '_' :: ps, ts =>
    match ts with
    | [] => false
    | _ :: ts2 => likeMatch ps ts2
  | p :: ps, ts =>
    match ts with
    | [] => false
    | t :: ts2 => likeLower p == likeLower t && likeMatch ps ts2

/-- `text LIKE pattern` on strings. -/
def sqlLike (pattern text : String) : Bool := likeMatch pattern.data text.data

/-- Number of days sqlite's date parser accepts for a month of a year. -/
def daysInMonth (y mo : Nat) : Nat :=
  if mo == 2 then (if (y % 4 == 0 && y % 100 != 0) || y % 400 == 0 then 29 else 28)
  else if mo == 4 || mo == 6 || mo == 9 || mo == 11 then 30 else 31

/-- Numeric value of a decimal digit character. -/
def digitVal (c : Char) : Nat := c.toNat - 48

/-- A `YYYY-MM-DD` string denoting a real calendar date — the date strings
sqlite's `strftime` parses without normalisation. -/
def validISODate (s : String) : Bool :=
  match s.data with
  | [y1, y2, y3, y4, h1, m1, m2, h2, d1, d2] =>
    y1.isDigit && y2.isDigit && y3.isDigit && y4.isDigit &&
    h1 == '-' && h2 == '-' && m1.isDigit && m2.isDigit && d1.isDigit && d2.isDigit &&
    (let yr := 1000 * digitVal y1 + 100 * digitVal y2 + 10 * digitVal y3 + digitVal y4
     let mo := 10 * digitVal m1 + digitVal m2
     let da := 10 * digitVal d1 + digitVal d2
     1 ≤ mo && mo ≤ 12 && 1 ≤ da && da ≤ daysInMonth yr mo)
  | _ => false

/-- The first four characters of a date string — its year component. -/
def yearOf (s : String) : String := ⟨s.data.take 4⟩

/-- Characters five and six of a date string — its month component. -/
def monthOf (s : String) : String := ⟨(s.data.drop 5).take 2⟩

/-- `strftime('%Y', s)` modelled on the domain above: the year digits of a
valid calendar date, `none` (SQL NULL) otherwise. -/
def sqliteYear (s : String) : Option String :=
  if validISODate s then some (yearOf s) else none

/-- `strftime('%m', s)` modelled on the domain above: the month digits of a
valid calendar date, `none` (SQL NULL) otherwise. -/
def sqliteMonth (s : String) : Option String :=
  if validISODate s then some (monthOf s) else none

/-- Result of `add_expense` in the variant that catches exceptions:
either `{"status": "ok", "id": id}` or `{"status": "error", "message": m}`. -/
inductive AddResult where
  | ok (id : Nat)
  | error (message : String)
deriving Repr, DecidableEq

/-- Result of `edit_expense` / `delete_expense`: `ok count` is
`{"status": "ok", "rows_updated"/"rows_deleted": count}`, `error m` is
`{"status": "error", "message": m}`. -/
inductive MutationResult where
  | ok (count : Nat)
  | error (message : String)
deriving Repr, DecidableEq

/-- `DELETE FROM expenses WHERE id = ?` — identical in both variants
(the extended variant's try/except cannot fire in this model).  `cur.rowcount`
is the number of rows the DELETE removed. -/
def delete_expense (st : DBState) (expense_id : Nat) : MutationResult × DBState :=
  (.ok (st.rows.countP fun r => r.id == expense_id),
   ⟨st.rows.filter fun r => !(r.id == expense_id), st.nextId⟩)

namespace ExpenseTracker

/-- `add_expense` of the base variant.  The INSERT binds the five values; a
`None` for the `date`, `amount` or `category` column violates the schema's
NOT NULL constraint and, with no try/except, the sqlite error propagates to
the dispatch layer — modelled as first component `none`.  On success the
structured result carries `cur.lastrowid`. -/
def add_expense (st : DBState) (date : Option String) (amount : Option Rat)
    (category : Option String) (subcategory : String := "") (note : String := "") :
    Option Nat × DBState :=
  match date with
  | none => (none, st)
  | some d =>
    match amount with
    | none => (none, st)
    | some a =>
      match category with
      | none => (none, st)
      | some c =>
        (some st.nextId,
         ⟨st.rows ++ [⟨st.nextId, d, a, c, subcategory, note⟩], st.nextId + 1⟩)

/-- `list_expenses` of the base variant:
`SELECT ... WHERE date BETWEEN ? AND ? ORDER BY id ASC`. -/
def list_expenses (st : DBState) (start_date end_date : String) : List Expense :=
  List.insertionSort (fun a b => a.id ≤ b.id)
    (st.rows.filter fun r => dateBetween start_date end_date r.date)

/-- `summarize` of the base variant:
`SELECT category, SUM(amount) ... WHERE date BETWEEN ? AND ?` plus
`AND category = ?` when `category` is truthy, then
`GROUP BY category ORDER BY category ASC`. -/
def summarize (st : DBState) (start_date end_date : String)
    (category : Option String := none) : List (String × Rat) :=
  List.insertionSort (fun a b => strLe a.1 b.1 = true)
    ((groupAgg (fun r => r.category)
        (if truthyStr category then
           (st.rows.filter fun r => dateBetween start_date end_date r.date).filter
             fun r => r.category == category.getD ""
         else st.rows.filter fun r => dateBetween start_date end_date r.date)).map
      fun g => (g.1, g.2.1))

/-- `edit_expense` of the base variant: each argument that `is not None`
contributes a `SET` clause; with no clause the function short-circuits to the
error result without touching the database.  `cur.rowcount` counts the rows
the UPDATE matched. -/
def edit_expense (st : DBState) (expense_id : Nat)
    (date : Option String := none) (amount : Option Rat := none)
    (category : Option String := none) (subcategory : Option String := none)
    (note : Option String := none) : MutationResult × DBState :=
  if date.isSome || amount.isSome || category.isSome || subcategory.isSome || note.isSome then
    (.ok (st.rows.countP fun r => r.id == expense_id),
     ⟨st.rows.map fun r =>
        if r.id == expense_id then
          { r with date := date.getD r.date, amount := amount.getD r.amount,
                   category := category.getD r.category,
                   subcategory := subcategory.getD r.subcategory,
                   note := note.getD r.note }
        else r,
      st.nextId⟩)
  else (.error "No fields provided to update", st)

/-- The `categories` resource of the base variant: re-reads
`categories.json` on every call and returns its content; if the file is
absent the `open` raises and the fault propagates (`none`).  Nothing is ever
written. -/
def categories (fs : Option String) : Option String := fs

end ExpenseTracker

namespace TestRemote

/-- `add_expense` of the extended variant: as in the base variant, but the
try/except turns the NOT NULL constraint violation into a structured error
result (sqlite names the leftmost violated column). -/
def add_expense (st : DBState) (date : Option String) (amount : Option Rat)
    (category : Option String) (subcategory : String := "") (note : String := "") :
    AddResult × DBState :=
  match date with
  | none => (.error "NOT NULL constraint failed: expenses.date", st)
  | some d =>
    match amount with
    | none => (.error "NOT NULL constraint failed: expenses.amount", st)
    | some a =>
      match category with
      | none => (.error "NOT NULL constraint failed: expenses.category", st)
      | some c =>
        (.ok st.nextId,
         ⟨st.rows ++ [⟨st.nextId, d, a, c, subcategory, note⟩], st.nextId + 1⟩)

/-- Row order `ORDER BY date DESC, id DESC` of the extended variant's
`list_expenses`. -/
def dateDescIdDesc (a b : Expense) : Prop :=
  if a.date = b.date then b.id ≤ a.id else strLe b.date a.date = true

instance : DecidableRel dateDescIdDesc := fun a b => by
  unfold dateDescIdDesc; infer_instance

/-- `list_expenses` of the extended variant:
`SELECT ... WHERE date BETWEEN ? AND ? ORDER BY date DESC, id DESC`. -/
def list_expenses (st : DBState) (start_date end_date : String) : List Expense :=
  List.insertionSort dateDescIdDesc
    (st.rows.filter fun r => dateBetween start_date end_date r.date)

/-- `summarize` of the extended variant: additionally selects `COUNT(*)` and
orders the groups by `total_amount DESC`. -/
def summarize (st : DBState) (start_date end_date : String)
    (category : Option String := none) : List (String × Rat × Nat) :=
  List.insertionSort (fun a b => b.2.1 ≤ a.2.1)
    (groupAgg (fun r => r.category)
      (if truthyStr category then
         (st.rows.filter fun r => dateBetween start_date end_date r.date).filter
           fun r => r.category == category.getD ""
       else st.rows.filter fun r => dateBetween start_date end_date r.date))

/-- `edit_expense` of the extended variant: an argument contributes a `SET`
clause only when it is Python-truthy (`if date: ...`), so `None`, `""` and a
zero amount all resolve as not provided. -/
def edit_expense (st : DBState) (expense_id : Nat)
    (date : Option String := none) (amount : Option Rat := none)
    (category : Option String := none) (subcategory : Option String := none)
    (note : Option String := none) : MutationResult × DBState :=
  if truthyStr date || truthyRat amount || truthyStr category ||
      truthyStr subcategory || truthyStr note then
    (.ok (st.rows.countP fun r => r.id == expense_id),
     ⟨st.rows.map fun r =>
        if r.id == expense_id then
          { r with date := if truthyStr date then date.getD r.date else r.date,
                   amount := if truthyRat amount then amount.getD r.amount else r.amount,
                   category := if truthyStr category then category.getD r.category else r.category,
                   subcategory := if truthyStr subcategory then subcategory.getD r.subcategory
                                  else r.subcategory,
                   note := if truthyStr note then note.getD r.note else r.note }
        else r,
      st.nextId⟩)
  else (.error "No fields provided", st)

/-- `search_expenses`:
`WHERE note LIKE ? OR category LIKE ? OR subcategory LIKE ? ORDER BY date DESC`
with each parameter bound to `f"%{keyword}%"`. -/
def search_expenses (st : DBState) (keyword : String) : List Expense :=
  List.insertionSort (fun a b => strLe b.date a.date = true)
    (st.rows.filter fun r =>
      sqlLike ("%" ++ keyword ++ "%") r.note ||
      sqlLike ("%" ++ keyword ++ "%") r.category ||
      sqlLike ("%" ++ keyword ++ "%") r.subcategory)

/-- `monthly_report`:
`SELECT strftime('%m', date), SUM(amount), COUNT(*) WHERE strftime('%Y', date) = ?`
`GROUP BY month ORDER BY month ASC`; the parameter is `str(year)`. -/
def monthly_report (st : DBState) (year : String) : List (String × Rat × Nat) :=
  List.insertionSort (fun a b => strLe a.1 b.1 = true)
    (groupAgg (fun r => (sqliteMonth r.date).getD "")
      (st.rows.filter fun r => sqliteYear r.date == some year))

/-- The ten fixed labels of the extended variant's default categories
document. -/
def default_categories : List String :=
  ["Food & Dining", "Transportation", "Shopping", "Entertainment",
   "Bills & Utilities", "Healthcare", "Travel", "Education",
   "Business", "Other"]

/-- `json.dump({"categories": cats}, f, indent=2)` — the exact text layout
Python writes (the labels contain no characters JSON escapes). -/
def dumpCategories (cats : List String) : String :=
  "\x7b\n  \"categories\": [\n    " ++
    String.intercalate ",\n    " (cats.map fun c => "\"" ++ c ++ "\"") ++
    "\n  ]\n\x7d"

/-- The `categories` resource of the extended variant: when
`categories.json` does not exist it first writes the default document, then
(in either case) re-reads the file and returns its content verbatim.  The
filesystem is the `Option String` argument (`none` = no file); the result is
the filesystem after the call and the returned payload.  The except-branch
for an unreadable/unwritable file is outside this model. -/
def categories (fs : Option String) : Option String × String :=
  match fs with
  | none => (some (dumpCategories default_categories), dumpCategories default_categories)
  | some content => (some content, content)

end TestRemote

/-- A client-visible call to the base variant's mutating tools, for session
traces. -/
inductive Op where
  | addE (date : Option String) (amount : Option Rat) (category : Option String)
      (subcategory : String) (note : String)
  | editE (expense_id : Nat) (date : Option String) (amount : Option Rat)
      (category : Option String) (subcategory : Option String) (note : Option String)
  | deleteE (expense_id : Nat)

/-- The database state after one call. -/
def execOp (st : DBState) : Op → DBState
  | .addE d a c s n => (ExpenseTracker.add_expense st d a c s n).2
  | .editE i d a c s n => (ExpenseTracker.edit_expense st i d a c s n).2
  | .deleteE i => (delete_expense st i).2

/-- The id a call returns, when it is a successful create. -/
def opReturnedId (st : DBState) : Op → Option Nat
  | .addE d a c s n => (ExpenseTracker.add_expense st d a c s n).1
  | _ => none

/-- The ids returned by the successful creates of a session trace, in call
order. -/
def addIds (st : DBState) : List Op → List Nat
  | [] => []
  | op :: ops =>
    match opReturnedId st op with
    | some i => i :: addIds (execOp st op) ops
    | none => addIds (execOp st op) ops

/-- The `AUTOINCREMENT` invariant: every stored id is below the counter. -/
def DBInv (st : DBState) : Prop := ∀ r ∈ st.rows, r.id < st.nextId

instance (st : DBState) : Decidable (DBInv st) := List.decidableBAll _ _

/-- The row set `summarize` aggregates over: date within the inclusive range
and, when the category filter is truthy, category equal to it. -/
def summMatches (start_date end_date : String) (category : Option String)
    (r : Expense) : Bool :=
  dateBetween start_date end_date r.date &&
    (if truthyStr category then r.category == category.getD "" else true)

/-- Concrete data for witnesses and counterexamples: a single `Food` row. -/
def row1 : Expense := ⟨1, "2024-01-15", 5, "Food", "", ""⟩

/-- A one-row table whose next `AUTOINCREMENT` id is 2. -/
def testDb : DBState := ⟨[row1], 2⟩

/-- A row whose only textual content is the note `"abc"` — no underscore and
no percent sign anywhere. -/
def rowABC : Expense := ⟨2, "2024-03-01", 3, "Misc", "", "abc"⟩

/-- A two-row table for the search claim. -/
def searchDb : DBState := ⟨[row1, rowABC], 3⟩

/-- A row dated one day past the January range bound. -/
def rowFeb : Expense := ⟨3, "2024-02-01", 7, "Food", "", ""⟩

/-- A table holding a January row and the out-of-range February row. -/
def febDb : DBState := ⟨[row1, rowFeb], 4⟩

/-- A concrete session: create, delete the created row, create again, edit. -/
def demoOps : List Op :=
  [.addE (some "2024-01-01") (some 10) (some "Food") "" "",
   .deleteE 1,
   .addE (some "2024-01-02") (some 20) (some "Travel") "" "",
   .editE 2 none (some 30) none none none]

/-! ## Order lemmas for the sqlite BINARY collation -/

theorem charListLe_refl : ∀ a : List Char, charListLe a a = true := by
  intro a
  induction a with
  | nil => rfl
  | cons x xs ih => simp [charListLe, ih]

theorem charListLe_total : ∀ a b : List Char, charListLe a b || charListLe b a := by
  intro a
  induction a with
  | nil => intro b; simp [charListLe]
  | cons x xs ih =>
    intro b
    cases b with
    | nil => simp [charListLe]
    | cons y ys =>
      by_cases h1 : x.toNat < y.toNat
      · simp [charListLe, h1]
      · by_cases h2 : y.toNat < x.toNat
        · simp [charListLe, h1, h2]
        · simp [charListLe, h1, h2, ih ys]

theorem charListLe_trans : ∀ a b c : List Char,
    charListLe a b = true → charListLe b c = true → charListLe a c = true := by
  intro a
  induction a with
  | nil => intro b c _ _; rfl
  | cons x xs ih =>
    intro b c hab hbc
    cases b with
    | nil => simp [charListLe] at hab
    | cons y ys =>
      cases c with
      | nil => simp [charListLe] at hbc
      | cons z zs =>
        simp only [charListLe] at hab hbc ⊢
        rcases lt_trichotomy x.toNat y.toNat with hxy | hxy | hxy
        · rcases lt_trichotomy y.toNat z.toNat with hyz | hyz | hyz
          · simp [lt_trans hxy hyz]
          · simp [hyz ▸ hxy]
          · rcases lt_trichotomy x.toNat z.toNat with h | h | h
            · simp [h]
            · simp [hyz, not_lt_of_lt hyz] at hbc
            · simp [hyz, not_lt_of_lt hyz] at hbc
        · rcases lt_trichotomy y.toNat z.toNat with hyz | hyz | hyz
          · simp [hxy ▸ hyz]
          · have hxz : x.toNat = z.toNat := hxy.trans hyz
            simp only [hxy, lt_irrefl, if_false] at hab
            simp only [hyz, lt_irrefl, if_false] at hbc
            simp only [hxz, lt_irrefl, if_false]
            exact ih ys zs hab hbc
          · simp [hyz, not_lt_of_lt hyz] at hbc
        · simp [hxy, not_lt_of_lt hxy] at hab

theorem charListLe_antisymm : ∀ a b : List Char,
    charListLe a b = true → charListLe b a = true → a = b := by
  intro a
  induction a with
  | nil =>
    intro b _ hba
    cases b with
    | nil => rfl
    | cons y ys => simp [charListLe] at hba
  | cons x xs ih =>
    intro b hab hba
    cases b with
    | nil => simp [charListLe] at hab
    | cons y ys =>
      simp only [charListLe] at hab hba
      rcases lt_trichotomy x.toNat y.toNat with h | h | h
      · simp [h, not_lt_of_lt h] at hba
      · have hx : x = y := Char.ext (UInt32.toNat.inj h)
        subst hx
        simp only [lt_irrefl, if_false] at hab hba
        rw [ih ys hab hba]
      · simp [h, not_lt_of_lt h] at hab

theorem strLe_refl (a : String) : strLe a a = true := charListLe_refl a.data

theorem strLe_total (a b : String) : strLe a b || strLe b a := charListLe_total a.data b.data

theorem strLe_trans {a b c : String} (hab : strLe a b = true) (hbc : strLe b c = true) :
    strLe a c = true := charListLe_trans a.data b.data c.data hab hbc

theorem strLe_antisymm {a b : String} (hab : strLe a b = true) (hba : strLe b a = true) :
    a = b := String.ext (charListLe_antisymm a.data b.data hab hba)

/-! ## GROUP BY lemmas -/

theorem groupAgg_mem {key : Expense → String} {rows : List Expense}
    {k : String} {t : Rat} {n : Nat} :
    (k, t, n) ∈ groupAgg key rows ↔
      ((∃ r ∈ rows, key r = k) ∧
       t = ((rows.filter fun r => key r == k).map Expense.amount).sum ∧
       n = (rows.filter fun r => key r == k).length) := by
  unfold groupAgg
  rw [List.mem_map]
  constructor
  · rintro ⟨c, hc, heq⟩
    simp only [Prod.mk.injEq] at heq
    obtain ⟨rfl, ht, hn⟩ := heq
    rw [List.mem_dedup, List.mem_map] at hc
    exact ⟨hc, ht.symm, hn.symm⟩
  · rintro ⟨⟨r, hr, hkr⟩, rfl, rfl⟩
    refine ⟨k, ?_, rfl⟩
    rw [List.mem_dedup, List.mem_map]
    exact ⟨r, hr, hkr⟩

theorem groupAgg_congr {key1 key2 : Expense → String} {rows : List Expense}
    (h : ∀ r ∈ rows, key1 r = key2 r) : groupAgg key1 rows = groupAgg key2 rows := by
  unfold groupAgg
  rw [List.map_congr_left h]
  apply List.map_congr_left
  intro k _
  have hfil : (rows.filter fun r => key1 r == k) = rows.filter fun r => key2 r == k :=
    List.filter_congr fun r hr => by rw [h r hr]
  rw [hfil]

theorem groupAgg_count_pos {key : Expense → String} {rows : List Expense}
    {k : String} {t : Rat} {n : Nat} (h : (k, t, n) ∈ groupAgg key rows) : 0 < n := by
  obtain ⟨⟨r, hr, hkr⟩, -, rfl⟩ := groupAgg_mem.1 h
  have : r ∈ rows.filter fun r => key r == k :=
    List.mem_filter.2 ⟨hr, by simp [hkr]⟩
  exact List.length_pos.2 (List.ne_nil_of_mem this)

theorem groupAgg_exists {key : Expense → String} {rows : List Expense} {r : Expense}
    (hr : r ∈ rows) : ∃ t n, (key r, t, n) ∈ groupAgg key rows :=
  ⟨_, _, groupAgg_mem.2 ⟨⟨r, hr, rfl⟩, rfl, rfl⟩⟩

/-! ## LIKE lemmas -/

theorem likeMatch_percent (ts : List Char) : likeMatch ['%'] ts = true := by
  simp only [likeMatch, List.any_eq_true, List.mem_range]
  exact ⟨ts.length, Nat.lt_succ_self _, by simp [likeMatch]⟩

theorem likeMatch_percent_cons {ps : List Char} (h : ∀ ts, likeMatch ps ts = true)
    (ts : List Char) : likeMatch ('%' :: ps) ts = true := by
  simp only [likeMatch, List.any_eq_true, List.mem_range]
  exact ⟨0, Nat.succ_pos _, by simpa using h ts⟩

/-- The LIKE pattern the server builds for the keyword `"%"` matches every
string. -/
theorem sqlLike_triple_percent (t : String) : sqlLike ("%" ++ "%" ++ "%") t = true := by
  have hdata : ("%" ++ "%" ++ "%" : String).data = ['%', '%', '%'] := rfl
  unfold sqlLike
  rw [hdata]
  exact likeMatch_percent_cons (likeMatch_percent_cons likeMatch_percent) t.data

/-! ## rowcount lemmas -/

theorem countP_id_eq_one {rows : List Expense} {X : Nat}
    (huniq : (rows.map Expense.id).Nodup) {r : Expense} (hr : r ∈ rows) (hid : r.id = X) :
    (rows.countP fun r2 => r2.id == X) = 1 := by
  induction rows with
  | nil => cases hr
  | cons a l ih =>
    rw [List.map_cons, List.nodup_cons] at huniq
    rw [List.countP_cons]
    rcases List.mem_cons.1 hr with rfl | hmem
    · have hz : (l.countP fun r2 => r2.id == X) = 0 := by
        rw [List.countP_eq_zero]
        intro b hb hbX
        rw [beq_iff_eq] at hbX
        exact huniq.1 (hid ▸ hbX ▸ List.mem_map_of_mem Expense.id hb)
      simp [hz, hid]
    · have ha : ¬a.id = X := fun haX =>
        huniq.1 (haX ▸ hid ▸ List.mem_map_of_mem Expense.id hmem)
      rw [ih huniq.2 hmem]
      simp [ha]

theorem countP_id_eq_zero {rows : List Expense} {X : Nat}
    (h : ∀ r ∈ rows, r.id ≠ X) : (rows.countP fun r2 => r2.id == X) = 0 := by
  rw [List.countP_eq_zero]
  intro b hb hbX
  exact h b hb (by rwa [beq_iff_eq] at hbX)

/-! ## Session-trace lemmas -/

theorem nextId_le_execOp (st : DBState) (op : Op) : st.nextId ≤ (execOp st op).nextId := by
  cases op with
  | addE d a c s n =>
    cases d <;> cases a <;> cases c <;>
      simp [execOp, ExpenseTracker.add_expense, Nat.le_succ]
  | editE i d a c s n =>
    simp only [execOp, ExpenseTracker.edit_expense]
    split <;> simp
  | deleteE i => exact Nat.le_refl _

theorem opReturnedId_eq {st : DBState} {op : Op} {i : Nat}
    (h : opReturnedId st op = some i) :
    i = st.nextId ∧ (execOp st op).nextId = st.nextId + 1 := by
  cases op with
  | addE d a c s n =>
    cases d <;> cases a <;> cases c <;>
      simp_all [opReturnedId, execOp, ExpenseTracker.add_expense]
  | editE i2 d a c s n => simp [opReturnedId] at h
  | deleteE i2 => simp [opReturnedId] at h

theorem mem_addIds_le : ∀ (ops : List Op) (st : DBState) (x : Nat),
    x ∈ addIds st ops → st.nextId ≤ x := by
  intro ops
  induction ops with
  | nil => intro st x h; simp [addIds] at h
  | cons op ops ih =>
    intro st x h
    rw [addIds] at h
    cases hop : opReturnedId st op with
    | none =>
      rw [hop] at h
      exact Nat.le_trans (nextId_le_execOp st op) (ih _ _ h)
    | some i =>
      rw [hop] at h
      rcases List.mem_cons.1 h with rfl | h2
      · exact Nat.le_of_eq (opReturnedId_eq hop).1.symm
      · exact Nat.le_trans (nextId_le_execOp st op) (ih _ _ h2)

theorem addIds_pairwise : ∀ (ops : List Op) (st : DBState),
    (addIds st ops).Pairwise (· < ·) := by
  intro ops
  induction ops with
  | nil => intro st; simp [addIds]
  | cons op ops ih =>
    intro st
    rw [addIds]
    cases hop : opReturnedId st op with
    | none => exact ih _
    | some i =>
      refine List.Pairwise.cons ?_ (ih _)
      intro x hx
      obtain ⟨rfl, hnext⟩ := opReturnedId_eq hop
      have := mem_addIds_le ops (execOp st op) x hx
      omega

theorem mem_addIds_fresh {st : DBState} (h : DBInv st) {ops : List Op} {x : Nat}
    (hx : x ∈ addIds st ops) : ∀ r ∈ st.rows, r.id ≠ x :=
  fun r hr => Nat.ne_of_lt (Nat.lt_of_lt_of_le (h r hr) (mem_addIds_le ops st x hx))

theorem execOp_edit_ids (st : DBState) (i : Nat) (d : Option String) (a : Option Rat)
    (c sc n : Option String) :
    (execOp st (.editE i d a c sc n)).rows.map Expense.id = st.rows.map Expense.id := by
  simp only [execOp, ExpenseTracker.edit_expense]
  split
  · simp only [List.map_map]
    apply List.map_congr_left
    intro r _
    simp only [Function.comp_apply]
    split <;> rfl
  · rfl

/-! ## summarize and monthly_report membership lemmas -/

theorem summarize_filter_eq (st : DBState) (s e : String) (cat : Option String) :
    (if truthyStr cat then
       (st.rows.filter fun r => dateBetween s e r.date).filter
         fun r => r.category == cat.getD ""
     else st.rows.filter fun r => dateBetween s e r.date)
      = st.rows.filter (summMatches s e cat) := by
  by_cases h : truthyStr cat = true
  · rw [if_pos h, List.filter_filter]
    exact List.filter_congr fun r _ => by simp [summMatches, h, Bool.and_comm]
  · rw [if_neg h]
    exact List.filter_congr fun r _ => by
      simp [summMatches, Bool.eq_false_iff.mpr h]

theorem mem_summarize_base {st : DBState} {s e : String} {cat : Option String}
    {k : String} {t : Rat} :
    (k, t) ∈ ExpenseTracker.summarize st s e cat ↔
      ((∃ r ∈ st.rows, summMatches s e cat r = true ∧ r.category = k) ∧
       t = (((st.rows.filter (summMatches s e cat)).filter
              fun r => r.category == k).map Expense.amount).sum) := by
  unfold ExpenseTracker.summarize
  rw [List.mem_insertionSort, summarize_filter_eq, List.mem_map]
  constructor
  · rintro ⟨⟨k2, t2, n2⟩, hmem, heq⟩
    simp only [Prod.mk.injEq] at heq
    obtain ⟨rfl, rfl⟩ := heq
    obtain ⟨⟨r, hr, hkr⟩, rfl, -⟩ := groupAgg_mem.1 hmem
    have hr2 := List.mem_filter.1 hr
    exact ⟨⟨r, hr2.1, hr2.2, hkr⟩, rfl⟩
  · rintro ⟨⟨r, hr, hm, hk⟩, rfl⟩
    exact ⟨(k, _, ((st.rows.filter (summMatches s e cat)).filter
              fun r => r.category == k).length),
           groupAgg_mem.2 ⟨⟨r, List.mem_filter.2 ⟨hr, hm⟩, hk⟩, rfl, rfl⟩, rfl⟩

theorem mem_summarize_ext {st : DBState} {s e : String} {cat : Option String}
    {k : String} {t : Rat} {n : Nat} :
    (k, t, n) ∈ TestRemote.summarize st s e cat ↔
      ((∃ r ∈ st.rows, summMatches s e cat r = true ∧ r.category = k) ∧
       t = (((st.rows.filter (summMatches s e cat)).filter
              fun r => r.category == k).map Expense.amount).sum ∧
       n = ((st.rows.filter (summMatches s e cat)).filter
              fun r => r.category == k).length) := by
  unfold TestRemote.summarize
  rw [List.mem_insertionSort, summarize_filter_eq, groupAgg_mem]
  constructor
  · rintro ⟨⟨r, hr, hkr⟩, rfl, rfl⟩
    have hr2 := List.mem_filter.1 hr
    exact ⟨⟨r, hr2.1, hr2.2, hkr⟩, rfl, rfl⟩
  · rintro ⟨⟨r, hr, hm, hk⟩, rfl, rfl⟩
    exact ⟨⟨r, List.mem_filter.2 ⟨hr, hm⟩, hk⟩, rfl, rfl⟩

theorem summarize_base_empty {st : DBState} {s e : String} {cat : Option String}
    (h : ∀ r ∈ st.rows, summMatches s e cat r = false) :
    ExpenseTracker.summarize st s e cat = [] := by
  unfold ExpenseTracker.summarize
  rw [summarize_filter_eq]
  rw [List.filter_eq_nil_iff.2 fun r hr => by simp [h r hr]]
  rfl

theorem summarize_ext_empty {st : DBState} {s e : String} {cat : Option String}
    (h : ∀ r ∈ st.rows, summMatches s e cat r = false) :
    TestRemote.summarize st s e cat = [] := by
  unfold TestRemote.summarize
  rw [summarize_filter_eq]
  rw [List.filter_eq_nil_iff.2 fun r hr => by simp [h r hr]]
  rfl

theorem monthly_report_eq {st : DBState} {y : String}
    (hvalid : ∀ r ∈ st.rows, validISODate r.date = true) :
    TestRemote.monthly_report st y =
      List.insertionSort (fun a b => strLe a.1 b.1 = true)
        (groupAgg (fun r => monthOf r.date)
          (st.rows.filter fun r => yearOf r.date == y)) := by
  unfold TestRemote.monthly_report
  have hfil : (st.rows.filter fun r => sqliteYear r.date == some y)
      = st.rows.filter fun r => yearOf r.date == y :=
    List.filter_congr fun r hr => by simp [sqliteYear, hvalid r hr]
  rw [hfil]
  congr 1
  apply groupAgg_congr
  intro r hr
  have hv := hvalid r (List.mem_filter.1 hr).1
  simp [sqliteMonth, hv]

theorem mem_monthly_report {st : DBState} {y : String}
    (hvalid : ∀ r ∈ st.rows, validISODate r.date = true)
    {m : String} {t : Rat} {n : Nat} :
    (m, t, n) ∈ TestRemote.monthly_report st y ↔
      ((∃ r ∈ st.rows, yearOf r.date = y ∧ monthOf r.date = m) ∧
       t = (((st.rows.filter fun r => yearOf r.date == y).filter
              fun r => monthOf r.date == m).map Expense.amount).sum ∧
       n = ((st.rows.filter fun r => yearOf r.date == y).filter
              fun r => monthOf r.date == m).length) := by
  rw [monthly_report_eq hvalid, List.mem_insertionSort, groupAgg_mem]
  constructor
  · rintro ⟨⟨r, hr, hkr⟩, rfl, rfl⟩
    have hr2 := List.mem_filter.1 hr
    exact ⟨⟨r, hr2.1, by simpa using hr2.2, hkr⟩, rfl, rfl⟩
  · rintro ⟨⟨r, hr, hy, hm⟩, rfl, rfl⟩
    exact ⟨⟨r, List.mem_filter.2 ⟨hr, by simp [hy]⟩, hm⟩, rfl, rfl⟩

/-! ## Totality and transitivity of the ORDER BY comparators -/

theorem strLe_total_or (a b : String) : strLe a b = true ∨ strLe b a = true := by
  cases h : strLe a b
  · have htot := strLe_total a b
    rw [h] at htot
    exact Or.inr (by simpa using htot)
  · exact Or.inl rfl

instance : IsTotal Expense (fun a b => a.id ≤ b.id) := ⟨fun a b => Nat.le_total a.id b.id⟩

instance : IsTrans Expense (fun a b => a.id ≤ b.id) :=
  ⟨fun _ _ _ hab hbc => Nat.le_trans hab hbc⟩

instance : IsTotal Expense TestRemote.dateDescIdDesc := by
  constructor
  intro a b
  unfold TestRemote.dateDescIdDesc
  by_cases hd : a.date = b.date
  · rw [if_pos hd, if_pos hd.symm]
    exact Nat.le_total b.id a.id
  · rw [if_neg hd, if_neg (Ne.symm hd)]
    exact strLe_total_or b.date a.date

instance : IsTrans Expense TestRemote.dateDescIdDesc := by
  constructor
  intro a b c hab hbc
  unfold TestRemote.dateDescIdDesc at hab hbc ⊢
  by_cases h1 : a.date = b.date
  · by_cases h2 : b.date = c.date
    · rw [if_pos h1] at hab
      rw [if_pos h2] at hbc
      rw [if_pos (h1.trans h2)]
      exact Nat.le_trans hbc hab
    · rw [if_pos h1] at hab
      rw [if_neg h2] at hbc
      rw [if_neg (h1 ▸ h2)]
      rw [← h1] at hbc
      exact hbc
  · by_cases h2 : b.date = c.date
    · rw [if_neg h1] at hab
      rw [if_pos h2] at hbc
      rw [if_neg (h2 ▸ h1)]
      rw [h2] at hab
      exact hab
    · rw [if_neg h1] at hab
      rw [if_neg h2] at hbc
      have hac : strLe c.date a.date = true := strLe_trans hbc hab
      by_cases h3 : a.date = c.date
      · exfalso
        apply h2
        exact (strLe_antisymm hbc (h3 ▸ hab)).symm
      · rw [if_neg h3]
        exact hac

instance {α β : Type} : IsTotal (String × α × β) (fun a b => strLe a.1 b.1 = true) := by
  constructor
  intro a b
  exact strLe_total_or a.1 b.1

instance {α β : Type} : IsTrans (String × α × β) (fun a b => strLe a.1 b.1 = true) :=
  ⟨fun _ _ _ hab hbc => strLe_trans hab hbc⟩

instance {α : Type} : IsTotal (String × α) (fun a b => strLe a.1 b.1 = true) := by
  constructor
  intro a b
  exact strLe_total_or a.1 b.1

instance {α : Type} : IsTrans (String × α) (fun a b => strLe a.1 b.1 = true) :=
  ⟨fun _ _ _ hab hbc => strLe_trans hab hbc⟩

instance {α : Type} : IsTotal (α × Rat × Nat) (fun a b => b.2.1 ≤ a.2.1) :=
  ⟨fun a b => (le_total b.2.1 a.2.1).imp id id⟩

instance {α : Type} : IsTrans (α × Rat × Nat) (fun a b => b.2.1 ≤ a.2.1) :=
  ⟨fun _ _ _ hab hbc => le_trans hbc hab⟩

instance : IsTotal Expense (fun a b => strLe b.date a.date = true) := by
  constructor
  intro a b
  exact strLe_total_or b.date a.date

instance : IsTrans Expense (fun a b => strLe b.date a.date = true) :=
  ⟨fun _ _ _ hab hbc => strLe_trans hbc hab⟩

/-! ## The claims -/

/-- **C1**: a patch call (`edit_expense`, either variant) in which every
optional field resolves as not-provided — `None` in the base variant's
`is not None` test, falsy (`None`, `""`, `0`) in the extended variant's
truthiness test — returns the structured `status = "error"` result with the
variant's no-fields-provided message, and the table (indeed the whole
database state) is unchanged: no UPDATE is issued. -/
theorem C1_patch_no_fields (st : DBState) (expense_id : Nat)
    (d : Option String) (a : Option Rat) (c sc n : Option String)
    (hd : truthyStr d = false) (ha : truthyRat a = false) (hc : truthyStr c = false)
    (hsc : truthyStr sc = false) (hn : truthyStr n = false) :
    ExpenseTracker.edit_expense st expense_id none none none none none
      = (.error "No fields provided to update", st) ∧
    TestRemote.edit_expense st expense_id d a c sc n
      = (.error "No fields provided", st) := by
  refine ⟨rfl, ?_⟩
  unfold TestRemote.edit_expense
  rw [hd, ha, hc, hsc, hn]
  rfl

/-- Witness for C1: in the extended variant even explicitly supplied falsy
values (`""`, `0`) resolve as not-provided. -/
theorem C1_witness :
    (truthyStr (some "") = false ∧ truthyRat (some 0) = false) ∧
    (ExpenseTracker.edit_expense testDb 1 none none none none none
       = (.error "No fields provided to update", testDb) ∧
     TestRemote.edit_expense testDb 1 (some "") (some 0) none (some "") none
       = (.error "No fields provided", testDb)) :=
  ⟨⟨by decide, by decide⟩,
   C1_patch_no_fields testDb 1 (some "") (some 0) none (some "") none
     (by decide) (by decide) (by decide) (by decide) (by decide)⟩

/-- **C4** is false as stated: `add_expense` performs no validation of its
own.  The schema's NOT NULL constraints reject a `None`, but an empty string
is a legal TEXT value, so a call with empty `date` and empty `category`
inserts a row and returns ok in both variants — the claim predicted a
validation error and no insertion.  (Also, a `None` in the base variant
propagates as an unstructured fault, not a structured error result.) -/
theorem C4_counterexample :
    TestRemote.add_expense initState (some "") (some 12) (some "") "" ""
      = (.ok 1, ⟨[⟨1, "", 12, "", "", ""⟩], 2⟩) ∧
    ExpenseTracker.add_expense initState (some "") (some 12) (some "") "" ""
      = (some 1, ⟨[⟨1, "", 12, "", "", ""⟩], 2⟩) ∧
    ExpenseTracker.add_expense initState none (some 12) (some "Food") "" ""
      = (none, initState) := by
  refine ⟨?_, ?_, rfl⟩ <;> rfl

/-- **C4 (amended)**: a create call with a null date, amount or category
violates the NOT NULL constraint and inserts no row — reported as a
structured error result by the extended variant, propagated as an
unstructured fault by the base variant; every call with non-null date,
amount and category (empty strings included) inserts exactly one row and
returns ok with the new id. -/
theorem C4_add_validation (st : DBState) (d c sc n : String) (a : Rat) :
    (∀ a2 c2 sc2 n2,
       TestRemote.add_expense st none a2 c2 sc2 n2
         = (.error "NOT NULL constraint failed: expenses.date", st) ∧
       ExpenseTracker.add_expense st none a2 c2 sc2 n2 = (none, st)) ∧
    (∀ c2 sc2 n2,
       TestRemote.add_expense st (some d) none c2 sc2 n2
         = (.error "NOT NULL constraint failed: expenses.amount", st) ∧
       ExpenseTracker.add_expense st (some d) none c2 sc2 n2 = (none, st)) ∧
    (∀ sc2 n2,
       TestRemote.add_expense st (some d) (some a) none sc2 n2
         = (.error "NOT NULL constraint failed: expenses.category", st) ∧
       ExpenseTracker.add_expense st (some d) (some a) none sc2 n2 = (none, st)) ∧
    (TestRemote.add_expense st (some d) (some a) (some c) sc n
       = (.ok st.nextId, ⟨st.rows ++ [⟨st.nextId, d, a, c, sc, n⟩], st.nextId + 1⟩) ∧
     ExpenseTracker.add_expense st (some d) (some a) (some c) sc n
       = (some st.nextId, ⟨st.rows ++ [⟨st.nextId, d, a, c, sc, n⟩], st.nextId + 1⟩)) :=
  ⟨fun _ _ _ _ => ⟨rfl, rfl⟩, fun _ _ _ => ⟨rfl, rfl⟩, fun _ _ => ⟨rfl, rfl⟩, rfl, rfl⟩

/-- **C9**: requesting the categories resource (the extended variant, which
owns the default-creation behaviour) with no document present first writes
the default document containing exactly the ten fixed labels and returns it;
and the content is re-read from storage on every call, so a document edited
between two requests is returned as edited by the second request, without
restart. -/
theorem C9_categories_resource :
    TestRemote.categories none
      = (some (TestRemote.dumpCategories
                 ["Food & Dining", "Transportation", "Shopping", "Entertainment",
                  "Bills & Utilities", "Healthcare", "Travel", "Education",
                  "Business", "Other"]),
         TestRemote.dumpCategories
           ["Food & Dining", "Transportation", "Shopping", "Entertainment",
            "Bills & Utilities", "Healthcare", "Travel", "Education",
            "Business", "Other"]) ∧
    (∀ edited : String, TestRemote.categories (some edited) = (some edited, edited)) :=
  ⟨rfl, fun _ => rfl⟩

/-- **C10**: the keyword is embedded unescaped between `%` wildcards, so LIKE
metacharacters in it act as wildcards, not literals: with keyword `"%"` the
pattern `%%%` matches everything and every row of the table is returned, and
the keyword `"a_c"` matches a row via its note `"abc"` even though no text
field of that row contains an underscore at all. -/
theorem C10_search_wildcards :
    (∀ st : DBState, (TestRemote.search_expenses st "%").Perm st.rows) ∧
    TestRemote.search_expenses searchDb "a_c" = [rowABC] ∧
    (∀ c ∈ rowABC.note.data ++ rowABC.category.data ++ rowABC.subcategory.data,
       c ≠ '_') := by
  refine ⟨?_, by decide, by decide⟩
  intro st
  unfold TestRemote.search_expenses
  have hfil : (st.rows.filter fun r =>
      sqlLike ("%" ++ "%" ++ "%") r.note || sqlLike ("%" ++ "%" ++ "%") r.category ||
      sqlLike ("%" ++ "%" ++ "%") r.subcategory) = st.rows := by
    rw [List.filter_eq_self]
    intro r _
    rw [sqlLike_triple_percent, sqlLike_triple_percent, sqlLike_triple_percent]
    rfl
  rw [hfil]
  exact List.perm_insertionSort _ _

/-- **C3**: `list_expenses` returns exactly the rows whose date lies
lexicographically in the closed interval `[start_date, end_date]` — the
result is a permutation of the filtered table — sorted ascending by id in
the base variant and by descending date then descending id in the extended
variant; in particular a row dated `"2024-02-01"`, one day past the bound
`"2024-01-31"`, is excluded in both variants. -/
theorem C3_list_range (st : DBState) (s e : String) :
    (ExpenseTracker.list_expenses st s e).Perm
      (st.rows.filter fun r => dateBetween s e r.date) ∧
    (ExpenseTracker.list_expenses st s e).Pairwise (fun a b => a.id ≤ b.id) ∧
    (TestRemote.list_expenses st s e).Perm
      (st.rows.filter fun r => dateBetween s e r.date) ∧
    (TestRemote.list_expenses st s e).Pairwise TestRemote.dateDescIdDesc ∧
    (∀ r ∈ st.rows, r.date = "2024-02-01" →
       r ∉ ExpenseTracker.list_expenses st "2024-01-01" "2024-01-31" ∧
       r ∉ TestRemote.list_expenses st "2024-01-01" "2024-01-31") := by
  refine ⟨List.perm_insertionSort _ _, List.sorted_insertionSort _ _,
          List.perm_insertionSort _ _, List.sorted_insertionSort _ _, ?_⟩
  intro r _ hdate
  have hbet : dateBetween "2024-01-01" "2024-01-31" r.date = false := by
    rw [hdate]; decide
  constructor
  · intro hmem
    unfold ExpenseTracker.list_expenses at hmem
    rw [List.mem_insertionSort, List.mem_filter] at hmem
    rw [hbet] at hmem
    exact Bool.false_ne_true hmem.2
  · intro hmem
    unfold TestRemote.list_expenses at hmem
    rw [List.mem_insertionSort, List.mem_filter] at hmem
    rw [hbet] at hmem
    exact Bool.false_ne_true hmem.2

/-- Witness for C3 at a concrete table: the row dated `"2024-02-01"` is in
the table but excluded from the January 2024 listing of both variants. -/
theorem C3_witness :
    (rowFeb ∈ febDb.rows ∧ rowFeb.date = "2024-02-01") ∧
    (rowFeb ∉ ExpenseTracker.list_expenses febDb "2024-01-01" "2024-01-31" ∧
     rowFeb ∉ TestRemote.list_expenses febDb "2024-01-01" "2024-01-31") :=
  ⟨⟨by decide, by decide⟩,
   (C3_list_range febDb "2024-01-01" "2024-01-31").2.2.2.2 rowFeb
     (by decide) (by decide)⟩

/-- **C5** is false as stated for the extended variant: its truthiness test
treats a supplied empty-string category as not-provided, so
`edit_expense(X, category="")` returns the no-fields error and the stored
record keeps its old category instead of becoming `""`. -/
theorem C5_counterexample :
    row1 ∈ testDb.rows ∧ row1.id = 1 ∧ row1.category = "Food" ∧
    TestRemote.edit_expense testDb 1 none none (some "") none none
      = (.error "No fields provided", testDb) := by decide

/-- **C5 (amended)**: for every existing row `r` with id `X`, a patch call
supplying only the category field with a value `Y` that resolves as provided
— any `Y` in the base (`is not None`) variant, additionally `Y ≠ ""` for the
extended (truthiness) variant — reports one updated row and rewrites the
table so that exactly the rows with id `X` have their category replaced by
`Y`; the updated record agrees with the old one on every other field, each
row with a different id is unchanged, and the id counter is untouched. -/
theorem C5_patch_category (st : DBState) (X : Nat) (Y : String) (r : Expense)
    (huniq : (st.rows.map Expense.id).Nodup) (hr : r ∈ st.rows) (hid : r.id = X) :
    ExpenseTracker.edit_expense st X none none (some Y) none none
      = (.ok 1, ⟨st.rows.map fun r2 => if r2.id = X then { r2 with category := Y } else r2,
                 st.nextId⟩) ∧
    (Y ≠ "" →
       TestRemote.edit_expense st X none none (some Y) none none
         = (.ok 1, ⟨st.rows.map fun r2 => if r2.id = X then { r2 with category := Y } else r2,
                    st.nextId⟩)) ∧
    (∀ r2 : Expense, r2.id ≠ X →
       (if r2.id = X then { r2 with category := Y } else r2) = r2) ∧
    (if r.id = X then { r with category := Y } else r) = { r with category := Y } := by
  refine ⟨?_, ?_, fun r2 h => if_neg h, if_pos hid⟩
  · unfold ExpenseTracker.edit_expense
    rw [if_pos (by simp)]
    rw [countP_id_eq_one huniq hr hid]
    have hmap : (st.rows.map fun r2 =>
        if r2.id == X then
          { r2 with date := (none : Option String).getD r2.date,
                    amount := (none : Option Rat).getD r2.amount,
                    category := (some Y).getD r2.category,
                    subcategory := (none : Option String).getD r2.subcategory,
                    note := (none : Option String).getD r2.note }
        else r2)
        = st.rows.map fun r2 => if r2.id = X then { r2 with category := Y } else r2 := by
      apply List.map_congr_left
      intro r2 _
      by_cases h : r2.id = X
      · simp [h]
      · simp [h]
    rw [hmap]
  · intro hY
    have hYb : truthyStr (some Y) = true := by
      simp [truthyStr, hY]
    unfold TestRemote.edit_expense
    rw [if_pos (by simp [hYb])]
    rw [countP_id_eq_one huniq hr hid]
    have hmap : (st.rows.map fun r2 =>
        if r2.id == X then
          { r2 with date := if truthyStr none then (none : Option String).getD r2.date
                            else r2.date,
                    amount := if truthyRat none then (none : Option Rat).getD r2.amount
                              else r2.amount,
                    category := if truthyStr (some Y) then (some Y).getD r2.category
                                else r2.category,
                    subcategory := if truthyStr none then (none : Option String).getD r2.subcategory
                                   else r2.subcategory,
                    note := if truthyStr none then (none : Option String).getD r2.note
                            else r2.note }
        else r2)
        = st.rows.map fun r2 => if r2.id = X then { r2 with category := Y } else r2 := by
      apply List.map_congr_left
      intro r2 _
      by_cases h : r2.id = X
      · simp [h, truthyStr, hY]
      · simp [h]
    rw [hmap]

/-- Witness for C5: patching row 1 of the one-row table to category
`"Groceries"` changes exactly that field in both variants, and the base
variant also updates the category to the provided empty string. -/
theorem C5_witness :
    ((testDb.rows.map Expense.id).Nodup ∧ row1 ∈ testDb.rows ∧ row1.id = 1 ∧
     ("Groceries" : String) ≠ "") ∧
    (ExpenseTracker.edit_expense testDb 1 none none (some "Groceries") none none
       = (.ok 1, ⟨[⟨1, "2024-01-15", 5, "Groceries", "", ""⟩], 2⟩) ∧
     TestRemote.edit_expense testDb 1 none none (some "Groceries") none none
       = (.ok 1, ⟨[⟨1, "2024-01-15", 5, "Groceries", "", ""⟩], 2⟩) ∧
     ExpenseTracker.edit_expense testDb 1 none none (some "") none none
       = (.ok 1, ⟨[⟨1, "2024-01-15", 5, "", "", ""⟩], 2⟩)) :=
  ⟨⟨by decide, by decide, by decide, by decide⟩,
   ⟨(C5_patch_category testDb 1 "Groceries" row1 (by decide) (by decide) (by decide)).1,
    (C5_patch_category testDb 1 "Groceries" row1 (by decide) (by decide) (by decide)).2.1
      (by decide),
    (C5_patch_category testDb 1 "" row1 (by decide) (by decide) (by decide)).1⟩⟩

/-- **C6**: update and delete targeting an id with no matching row are not
errors: `edit_expense` (with at least one provided field, in either variant)
and `delete_expense` return `status = "ok"` with a count of 0 and leave the
database unchanged; and deleting an existing row twice reports
`rows_deleted = 1` then `rows_deleted = 0`. -/
theorem C6_missing_id (st : DBState) (X : Nat) :
    ((∀ r ∈ st.rows, r.id ≠ X) →
       delete_expense st X = (.ok 0, st) ∧
       (∀ d a c sc n,
          (Option.isSome d || Option.isSome a || Option.isSome c ||
           Option.isSome sc || Option.isSome n) = true →
          ExpenseTracker.edit_expense st X d a c sc n = (.ok 0, st)) ∧
       (∀ d a c sc n,
          (truthyStr d || truthyRat a || truthyStr c ||
           truthyStr sc || truthyStr n) = true →
          TestRemote.edit_expense st X d a c sc n = (.ok 0, st))) ∧
    ((st.rows.map Expense.id).Nodup →
       ∀ r ∈ st.rows, r.id = X →
       (delete_expense st X).1 = .ok 1 ∧
       delete_expense (delete_expense st X).2 X = (.ok 0, (delete_expense st X).2)) := by
  constructor
  · intro hnone
    refine ⟨?_, ?_, ?_⟩
    · unfold delete_expense
      rw [countP_id_eq_zero hnone,
          List.filter_eq_self.2 fun r hr => by simp [hnone r hr]]
    · intro d a c sc n hsome
      unfold ExpenseTracker.edit_expense
      rw [if_pos hsome, countP_id_eq_zero hnone]
      rw [List.map_congr_left
            (fun r hr => if_neg (by simp [hnone r hr]) :
              ∀ r ∈ st.rows, _ = r),
          List.map_id']
    · intro d a c sc n htruthy
      unfold TestRemote.edit_expense
      rw [if_pos htruthy, countP_id_eq_zero hnone]
      rw [List.map_congr_left
            (fun r hr => if_neg (by simp [hnone r hr]) :
              ∀ r ∈ st.rows, _ = r),
          List.map_id']
  · intro huniq r hr hid
    have hone : (st.rows.countP fun r2 => r2.id == X) = 1 :=
      countP_id_eq_one huniq hr hid
    have hnone2 : ∀ r2 ∈ st.rows.filter fun r2 => !(r2.id == X), r2.id ≠ X := by
      intro r2 hr2
      have := (List.mem_filter.1 hr2).2
      simpa using this
    refine ⟨?_, ?_⟩
    · unfold delete_expense
      rw [hone]
    · unfold delete_expense
      simp only
      rw [countP_id_eq_zero hnone2,
          List.filter_eq_self.2 fun r2 hr2 => by simp [hnone2 r2 hr2]]

/-- Witness for C6: on the one-row table, deleting or editing the absent
id 99 reports count 0 and changes nothing, and deleting id 1 twice reports
1 then 0. -/
theorem C6_witness :
    ((∀ r ∈ testDb.rows, r.id ≠ 99) ∧ (testDb.rows.map Expense.id).Nodup ∧
     row1 ∈ testDb.rows ∧ row1.id = 1) ∧
    (delete_expense testDb 99 = (.ok 0, testDb) ∧
     ExpenseTracker.edit_expense testDb 99 (some "2025-01-01") none none none none
       = (.ok 0, testDb) ∧
     TestRemote.edit_expense testDb 99 (some "2025-01-01") none none none none
       = (.ok 0, testDb)) ∧
    ((delete_expense testDb 1).1 = .ok 1 ∧
     delete_expense (delete_expense testDb 1).2 1 = (.ok 0, (delete_expense testDb 1).2)) := by
  have h99 := (C6_missing_id testDb 99).1 (by decide)
  have h1 := (C6_missing_id testDb 1).2 (by decide) row1 (by decide) (by decide)
  exact ⟨⟨by decide, by decide, by decide, by decide⟩,
         ⟨h99.1, h99.2.1 (some "2025-01-01") none none none none (by decide),
          h99.2.2 (some "2025-01-01") none none none none (by decide)⟩,
         h1⟩

/-- **C7**: in any session over the base variant's tools (whose database
satisfies the AUTOINCREMENT invariant), the ids returned by successive
successful creates are pairwise strictly increasing in call order — hence
all distinct — no returned id ever coincides with the id of any row already
present (so an id freed by a delete is never handed out again), and an edit
never changes any row's id. -/
theorem C7_add_ids (st : DBState) (hinv : DBInv st) (ops : List Op) :
    (addIds st ops).Pairwise (· < ·) ∧
    (∀ x ∈ addIds st ops, ∀ r ∈ st.rows, r.id ≠ x) ∧
    (∀ i d a c sc n,
       (execOp st (.editE i d a c sc n)).rows.map Expense.id
         = st.rows.map Expense.id) :=
  ⟨addIds_pairwise ops st,
   fun _ hx => mem_addIds_fresh hinv hx,
   fun i d a c sc n => execOp_edit_ids st i d a c sc n⟩

/-- Witness for C7: a concrete create/delete/create/edit session starting
from the freshly initialised database. -/
theorem C7_witness :
    DBInv initState ∧
    ((addIds initState demoOps).Pairwise (· < ·) ∧
     (∀ x ∈ addIds initState demoOps, ∀ r ∈ initState.rows, r.id ≠ x) ∧
     (∀ i d a c sc n,
        (execOp initState (.editE i d a c sc n)).rows.map Expense.id
          = initState.rows.map Expense.id)) :=
  ⟨by decide, C7_add_ids initState (by decide) demoOps⟩

/-- **C2** is false as stated: both variants test the category filter for
Python truthiness (`if category:`), so a supplied empty-string filter is
ignored instead of matched exactly.  On a table whose only row has category
`"Food"`, calling `summarize` with the filter `some ""` should, per the
claim, yield no group (no row's category equals `""`), but both variants
return the `"Food"` group. -/
theorem C2_counterexample :
    ExpenseTracker.summarize testDb "2024-01-01" "2024-01-31" (some "")
      = [("Food", 5)] ∧
    TestRemote.summarize testDb "2024-01-01" "2024-01-31" (some "")
      = [("Food", 5, 1)] ∧
    (∀ r ∈ testDb.rows, r.category ≠ "") := by
  refine ⟨?_, ?_, by decide⟩
  · simp +decide [ExpenseTracker.summarize, groupAgg, testDb, row1]
  · simp +decide [TestRemote.summarize, groupAgg, testDb, row1]

/-- **C2 (amended)**: for every date range and optional category filter,
`summarize` (each variant) returns one group per distinct category among the
rows whose date lies lexicographically in `[start_date, end_date]` and —
when the supplied filter is truthy, i.e. a non-empty string — whose category
equals the filter (an empty-string filter, like an absent one, applies no
category restriction); each group's `total_amount` is the sum of `amount`
over exactly those rows (the extended variant also counts them and the count
is positive), no group with zero matching rows appears, and if no row
matches the result is the empty sequence. -/
theorem C2_summarize_groups (st : DBState) (s e : String) (cat : Option String) :
    (∀ k t, (k, t) ∈ ExpenseTracker.summarize st s e cat →
       t = (((st.rows.filter (summMatches s e cat)).filter
              fun r => r.category == k).map Expense.amount).sum ∧
       ∃ r ∈ st.rows, summMatches s e cat r = true ∧ r.category = k) ∧
    (∀ r ∈ st.rows, summMatches s e cat r = true →
       ∃ t, (r.category, t) ∈ ExpenseTracker.summarize st s e cat) ∧
    ((∀ r ∈ st.rows, summMatches s e cat r = false) →
       ExpenseTracker.summarize st s e cat = []) ∧
    (∀ k t n, (k, t, n) ∈ TestRemote.summarize st s e cat →
       t = (((st.rows.filter (summMatches s e cat)).filter
              fun r => r.category == k).map Expense.amount).sum ∧
       n = ((st.rows.filter (summMatches s e cat)).filter
              fun r => r.category == k).length ∧
       0 < n ∧ ∃ r ∈ st.rows, summMatches s e cat r = true ∧ r.category = k) ∧
    (∀ r ∈ st.rows, summMatches s e cat r = true →
       ∃ t n, (r.category, t, n) ∈ TestRemote.summarize st s e cat) ∧
    ((∀ r ∈ st.rows, summMatches s e cat r = false) →
       TestRemote.summarize st s e cat = []) := by
  refine ⟨?_, ?_, summarize_base_empty, ?_, ?_, summarize_ext_empty⟩
  · intro k t hmem
    obtain ⟨hex, ht⟩ := mem_summarize_base.1 hmem
    exact ⟨ht, hex⟩
  · intro r hr hm
    exact ⟨_, mem_summarize_base.2 ⟨⟨r, hr, hm, rfl⟩, rfl⟩⟩
  · intro k t n hmem
    obtain ⟨hex, ht, hn⟩ := mem_summarize_ext.1 hmem
    refine ⟨ht, hn, ?_, hex⟩
    obtain ⟨r, hr, hm, hk⟩ := hex
    have hmemf : r ∈ (st.rows.filter (summMatches s e cat)).filter
        fun r2 => r2.category == k :=
      List.mem_filter.2 ⟨List.mem_filter.2 ⟨hr, hm⟩, by simp [hk]⟩
    rw [hn]
    exact List.length_pos.2 (List.ne_nil_of_mem hmemf)
  · intro r hr hm
    exact ⟨_, _, mem_summarize_ext.2 ⟨⟨r, hr, hm, rfl⟩, rfl, rfl⟩⟩

/-- Witness for C2 (amended): on the one-row January table with no filter,
the `"Food"` group exists in both variants. -/
theorem C2_witness :
    (row1 ∈ testDb.rows ∧ summMatches "2024-01-01" "2024-01-31" none row1 = true) ∧
    (∃ t, (row1.category, t)
        ∈ ExpenseTracker.summarize testDb "2024-01-01" "2024-01-31" none) ∧
    (∃ t n, (row1.category, t, n)
        ∈ TestRemote.summarize testDb "2024-01-01" "2024-01-31" none) :=
  ⟨⟨by decide, by decide⟩,
   (C2_summarize_groups testDb "2024-01-01" "2024-01-31" none).2.1 row1
     (by decide) (by decide),
   (C2_summarize_groups testDb "2024-01-01" "2024-01-31" none).2.2.2.2.1 row1
     (by decide) (by decide)⟩

/-- **C8**: for every year input (already rendered to its digit string, as
`str(year)` does) over a table of well-formed calendar dates,
`monthly_report` has one entry per month with at least one row whose date's
year component equals the input year; each entry's `total_amount` is the sum
of `amount` and its `count` the number of exactly those rows of that month
and year (so rows from other years contribute nothing), the count is
positive — months with zero matching rows are omitted — and the entries are
ordered ascending by month. -/
theorem C8_monthly_report (st : DBState) (y : String)
    (hvalid : ∀ r ∈ st.rows, validISODate r.date = true) :
    (∀ m t n, (m, t, n) ∈ TestRemote.monthly_report st y →
       t = (((st.rows.filter fun r => yearOf r.date == y).filter
              fun r => monthOf r.date == m).map Expense.amount).sum ∧
       n = ((st.rows.filter fun r => yearOf r.date == y).filter
              fun r => monthOf r.date == m).length ∧
       0 < n ∧ ∃ r ∈ st.rows, yearOf r.date = y ∧ monthOf r.date = m) ∧
    (∀ r ∈ st.rows, yearOf r.date = y →
       ∃ t n, (monthOf r.date, t, n) ∈ TestRemote.monthly_report st y) ∧
    (TestRemote.monthly_report st y).Pairwise (fun a b => strLe a.1 b.1 = true) := by
  refine ⟨?_, ?_, ?_⟩
  · intro m t n hmem
    obtain ⟨hex, ht, hn⟩ := (mem_monthly_report hvalid).1 hmem
    refine ⟨ht, hn, ?_, hex⟩
    obtain ⟨r, hr, hy, hm⟩ := hex
    have hmemf : r ∈ (st.rows.filter fun r2 => yearOf r2.date == y).filter
        fun r2 => monthOf r2.date == m :=
      List.mem_filter.2 ⟨List.mem_filter.2 ⟨hr, by simp [hy]⟩, by simp [hm]⟩
    rw [hn]
    exact List.length_pos.2 (List.ne_nil_of_mem hmemf)
  · intro r hr hy
    exact ⟨_, _, (mem_monthly_report hvalid).2 ⟨⟨r, hr, hy, rfl⟩, rfl, rfl⟩⟩
  · unfold TestRemote.monthly_report
    exact List.sorted_insertionSort _ _

/-- Witness for C8: the one-row January-2024 table has well-formed dates and
yields the row's month group for the year `"2024"`, sorted. -/
theorem C8_witness :
    (∀ r ∈ testDb.rows, validISODate r.date = true) ∧
    ((∀ r ∈ testDb.rows, yearOf r.date = "2024" →
        ∃ t n, (monthOf r.date, t, n) ∈ TestRemote.monthly_report testDb "2024") ∧
     (TestRemote.monthly_report testDb "2024").Pairwise
       (fun a b => strLe a.1 b.1 = true)) :=
  ⟨by decide, (C8_monthly_report testDb "2024" (by decide)).2⟩

/-- Witness for C10: with keyword `"%"` the two-row table is returned
whole (as a permutation). -/
theorem C10_witness :
    (TestRemote.search_expenses searchDb "%").Perm searchDb.rows :=
  C10_search_wildcards.1 searchDb
